import Mathlib

/-!
Shallow embedding of `src/kernel/irq/exoticbalance/exoticbalance.c`
(ExoticBalance Hybrid, a periodic IRQ-affinity rebalancer), together with
theorems settling the specification claims about it.

Modelling conventions:
* Machine `unsigned int` counters are `Nat` reduced modulo `2^32` exactly
  where the C code performs unsigned arithmetic (`uadd`, `usub`).
* The C `int` variable `delta_sum` accumulates `unsigned int` deltas:
  `delta_sum += delta` converts the `int` to `unsigned`, adds mod `2^32`,
  and narrows the result back two's-complement.  The embedding stores its
  32-bit pattern as a `Nat < 2^32` (`uadd`) and reads it back as a signed
  value with `toSigned` where the C code uses it as an `int`:
  `delta_avg = delta_sum / num_online_cpus()` is the truncating `int`
  division `Int.tdiv`, and in the guard comparison
  `(max_irq - min_irq) >= dynamic_threshold` the `int` threshold is
  converted to `unsigned` mod `2^32` (`toBits`) because the left operand
  is unsigned.
* Platform collaborators (interrupt statistics, IRQ descriptors, affinity
  capability, idle query, cpufreq, thermal, the module parameter) are
  oracles collected in `Env`; one tick reads them through the same access
  pattern as the C code.
* Arrays `cpu_irq_count` / `cpu_irq_last` (allocated with `nr_cpu_ids`
  entries) are embedded as functions `Nat → Nat`; `memset` to zero becomes
  the constant-zero function.
-/

namespace ExoticBalance

/-- `#define LIGHT_INTERVAL_MS 5000`. -/
def LIGHT_INTERVAL_MS : Nat := 5000

/-- `#define HEAVY_INTERVAL_MS 30000`. -/
def HEAVY_INTERVAL_MS : Nat := 30000

/-- `#define MIN_DELTA_IRQS_BASE 800`. -/
def MIN_DELTA_IRQS_BASE : Nat := 800

/-- `#define MAX_CPU_TEMP_THRESHOLD 70` (compared against an `int`). -/
def MAX_CPU_TEMP_THRESHOLD : Int := 70

/-- `#define MAX_IRQ_MIGRATE_PER_TICK 5`. -/
def MAX_IRQ_MIGRATE_PER_TICK : Nat := 5

/-- `2^32`, the modulus of C `unsigned int` arithmetic. -/
def U32 : Nat := 4294967296

/-- `UINT_MAX`, the initial value of the local `min_irq`. -/
def UINT_MAX : Nat := 4294967295

/-- Unsigned 32-bit addition (`cpu_irq_count[cpu] += ...`). -/
def uadd (a b : Nat) : Nat := (a + b) % U32

/-- Unsigned 32-bit subtraction (`cpu_irq_count[cpu] - cpu_irq_last[cpu]`),
wrapping below zero as C unsigned arithmetic does. -/
def usub (a b : Nat) : Nat := (a + (U32 - b % U32)) % U32

/-- `2^31`, the magnitude of `INT_MIN`: patterns at or above it read as
negative `int` values. -/
def INT_MIN_MAG : Nat := 2147483648

/-- Read a 32-bit pattern as a two's-complement C `int`. -/
def toSigned (bits : Nat) : Int :=
  if bits % U32 < INT_MIN_MAG then ((bits % U32 : Nat) : Int)
  else ((bits % U32 : Nat) : Int) - (U32 : Int)

/-- The C `int`-to-`unsigned` conversion: reduce mod `2^32` and take the
canonical non-negative representative as the bit pattern. -/
def toBits (v : Int) : Nat := (v % (U32 : Int)).toNat

/-- Array store: the effect of `f[i] = v` on the function view of an array. -/
def updFn (f : Nat → Nat) (i v : Nat) : Nat → Nat :=
  fun x => if x = i then v else f x

/-- `struct irqaction`: only the handler name is relevant to this module. -/
structure IrqAction where
  name : Option String

/-- `struct irq_desc`: only the `action` chain is relevant to this module. -/
structure IrqDesc where
  action : Option IrqAction

/-- The fixed table `irq_name_blacklist` (the terminating `NULL` entry of the
C array becomes the end of the list). -/
def irq_name_blacklist : List String :=
  ["mdss", "sde", "dsi", "kgsl", "adreno", "msm_gpu",
   "input", "touch", "synaptics", "fts", "goodix",
   "ufs", "ufshcd", "qcom-ufshcd", "sdc",
   "wlan", "wifi", "rmnet", "ipa", "qcom,sps", "bam", "modem", "qrtr",
   "pmic", "smb", "bms", "timer", "hrtimer", "watchdog", "thermal", "cpu"]

/-- Whether `needle` occurs at the start of `hay` (character-exact). -/
def leadsWith : List Char → List Char → Bool
  | [], _ => true
  | _ :: _, [] => false
  | a :: as, b :: bs => (a == b) && leadsWith as bs

/-- Whether `needle` occurs anywhere in `hay`: the substring search that
`strnstr(name, frag, strlen(name))` performs (the length limit equals the
whole haystack, so this is plain substring occurrence). -/
def occursIn (needle : List Char) : List Char → Bool
  | [] => leadsWith needle []
  | c :: t => leadsWith needle (c :: t) || occursIn needle t

/-- The `!desc || !desc->action || !desc->action->name` chain of
`is_irq_blacklisted`, producing the handler name when all three are present. -/
def resolveName (d : Option IrqDesc) : Option String :=
  match d with
  | none => none
  | some desc =>
    match desc.action with
    | none => none
    | some act => act.name

/-- `is_irq_blacklisted`: with a resolved name, scan the table; an entry
matches when `strlen(name) >= strlen(entry)` and `strnstr` finds the entry
inside the name. Without a resolved name the line is not blacklisted. -/
def is_irq_blacklisted (d : Option IrqDesc) : Bool :=
  match resolveName d with
  | none => false
  | some nm =>
    irq_name_blacklist.any fun frag =>
      decide (frag.length ≤ nm.length) && occursIn frag.data nm.data

/-- The platform collaborators one tick consumes, each named after the C
symbol it stands for.  `cpu_is_idle_wrap` and `get_cpu_max_freq` take `Int`
because the C code can pass the `-1` sentinel / any `int` CPU id;
`get_cpu_max_freq` returns `0` when `cpufreq_cpu_get` fails, and
`get_max_cpu_temp` is the already-normalized (`/1000`) thermal reading,
`0` when the thermal zone is unavailable.  `cpu_is_idle_wrap` is an oracle
covering both build variants of the C helper: the constantly-false
fallback (when the platform lacks `cpuidle_cpu_in_idle`) is one possible
oracle. -/
structure Env where
  nr_cpu_ids : Nat
  nr_irqs : Nat
  online : List Nat
  kstat_irqs_cpu : Nat → Nat → Nat
  irq_to_desc : Nat → Option IrqDesc
  irq_can_set_affinity : Nat → Bool
  cpu_is_idle_wrap : Int → Bool
  get_cpu_max_freq : Int → Nat
  get_max_cpu_temp : Int
  exoticbalance_enabled : Bool

/-- `is_cpu_big`: maximum supported frequency at least 2000000 kHz (2.0 GHz).
A failed frequency query yields `get_cpu_max_freq = 0`, hence `false`. -/
def is_cpu_big (env : Env) (cpu : Int) : Bool :=
  decide (2000000 ≤ env.get_cpu_max_freq cpu)

/-- The module's process-wide mutable state: the two counter arrays and the
sampling-mode flag. -/
structure BState where
  cpu_irq_count : Nat → Nat
  cpu_irq_last : Nat → Nat
  heavy_tick : Bool

/-- Inner sampling loop body for one interrupt line: add its per-CPU count
into `cpu_irq_count[cpu]` for every online CPU. -/
def sampleOne (env : Env) (irq : Nat) (cnt : Nat → Nat) : Nat → Nat :=
  env.online.foldl (fun c cpu => updFn c cpu (uadd (c cpu) (env.kstat_irqs_cpu irq cpu))) cnt

/-- The sampling pass of `exotic_balance_irq`: `memset` the array to zero,
then for every `irq < nr_irqs`, skipping blacklisted lines when not a heavy
(FINE) tick, accumulate the per-CPU counts. -/
def sample (env : Env) (heavy : Bool) : Nat → Nat :=
  (List.range env.nr_irqs).foldl
    (fun cnt irq =>
      if !heavy && is_irq_blacklisted (env.irq_to_desc irq) then cnt
      else sampleOne env irq cnt)
    (fun _ => 0)

/-- The locals threaded through the per-CPU delta scan of
`exotic_balance_irq`, plus the `cpu_irq_last` array it writes back.
`delta_sum` holds the 32-bit pattern of the C `int` `delta_sum` (read back
as a signed value with `toSigned` where the C code uses it as an `int`). -/
structure ScanSt where
  max_irq : Nat
  min_irq : Nat
  max_cpu : Int
  min_cpu : Int
  delta_sum : Nat
  last : Nat → Nat

/-- Initial values of the scan locals:
`max_irq = 0, min_irq = UINT_MAX, max_cpu = -1, min_cpu = -1, delta_sum = 0`. -/
def scanInit (last : Nat → Nat) : ScanSt :=
  { max_irq := 0, min_irq := UINT_MAX, max_cpu := -1, min_cpu := -1,
    delta_sum := 0, last := last }

/-- One iteration of the `for_each_online_cpu` delta scan: compute
`delta = cpu_irq_count[cpu] - cpu_irq_last[cpu]` (unsigned), add it to
`delta_sum` — `delta_sum += delta` is the C usual-arithmetic-conversion
addition: the `int` converts to `unsigned`, the sum wraps mod `2^32`, and
the result narrows back two's-complement, so on bit patterns it is `uadd`
— update the strict max and strict min, then store
`cpu_irq_last[cpu] = cpu_irq_count[cpu]`.  (The C code updates max before
min; the two updates touch disjoint fields, so the simultaneous record
below is the same function.) -/
def scanStep (cnt : Nat → Nat) (s : ScanSt) (cpu : Nat) : ScanSt :=
  let delta := usub (cnt cpu) (s.last cpu)
  { max_irq := if s.max_irq < delta then delta else s.max_irq
    max_cpu := if s.max_irq < delta then Int.ofNat cpu else s.max_cpu
    min_irq := if delta < s.min_irq then delta else s.min_irq
    min_cpu := if delta < s.min_irq then Int.ofNat cpu else s.min_cpu
    delta_sum := uadd s.delta_sum delta
    last := updFn s.last cpu (cnt cpu) }

/-- The whole delta scan of a tick, over the online CPUs in enumeration
order, starting from the freshly sampled `cpu_irq_count`. -/
def scanResult (env : Env) (st : BState) : ScanSt :=
  env.online.foldl (scanStep (sample env st.heavy_tick)) (scanInit st.cpu_irq_last)

/-- The loop of `migrate_irqs_limited`, recursing over the remaining
interrupt-line ids with the current `*migrated` count: `break` once the
count reaches `MAX_IRQ_MIGRATE_PER_TICK`; skip lines whose affinity cannot
be set, blacklisted lines, and every line while the destination CPU is
idle; otherwise set the line's affinity to exactly the destination and
count it.  Returns the ids whose affinity was set, in scan order.
(`dst` is the C parameter `to`.) -/
def migrateLoop (env : Env) (dst : Int) : List Nat → Nat → List Nat
  | [], _ => []
  | irq :: rest, migrated =>
    if MAX_IRQ_MIGRATE_PER_TICK ≤ migrated then []
    else if !env.irq_can_set_affinity irq then migrateLoop env dst rest migrated
    else if is_irq_blacklisted (env.irq_to_desc irq) then migrateLoop env dst rest migrated
    else if env.cpu_is_idle_wrap dst then migrateLoop env dst rest migrated
    else irq :: migrateLoop env dst rest (migrated + 1)

/-- `migrate_irqs_limited(from, to, &migrated)` with `migrated` starting at
`0`: scan the interrupt-line universe `0 .. nr_irqs` in ascending order.
(`src`/`dst` are the C parameters `from`/`to`; the C function never reads
`from`.) -/
def migrate_irqs_limited (env : Env) (src dst : Int) : List Nat :=
  migrateLoop env dst (List.range env.nr_irqs) 0

/-- The migration guard of `exotic_balance_irq`:
`max_cpu >= 0 && min_cpu >= 0 && max_cpu != min_cpu` and then
`(max_irq - min_irq) >= dynamic_threshold && !is_cpu_big(min_cpu) &&
is_cpu_big(max_cpu) && get_max_cpu_temp() < MAX_CPU_TEMP_THRESHOLD`.
The subtraction `max_irq - min_irq` is C unsigned subtraction (`usub`),
and because that left operand is `unsigned`, the `int`
`dynamic_threshold` is converted to `unsigned` mod `2^32` (`toBits`) for
the comparison. -/
def migrationGuard (env : Env) (s : ScanSt) (dynamic_threshold : Int) : Bool :=
  decide (0 ≤ s.max_cpu) && decide (0 ≤ s.min_cpu) && decide (s.max_cpu ≠ s.min_cpu) &&
  (decide (toBits dynamic_threshold ≤ usub s.max_irq s.min_irq) &&
   !is_cpu_big env s.min_cpu && is_cpu_big env s.max_cpu &&
   decide (env.get_max_cpu_temp < MAX_CPU_TEMP_THRESHOLD))

/-- Everything one execution of the work function `exotic_balance_irq`
produces: the new process-wide state, the final values of its locals, the
Migrator invocation (if any) with its `(from, to)` arguments, the ids whose
affinity was set, and the delay passed to `schedule_delayed_work`.
`delta_sum` is the 32-bit pattern of the C `int` local (see `toSigned`);
`delta_avg` is the value of the C `int` local `delta_avg`. -/
structure TickResult where
  state : BState
  max_irq : Nat
  min_irq : Nat
  max_cpu : Int
  min_cpu : Int
  delta_sum : Nat
  delta_avg : Int
  migratorCall : Option (Int × Int)
  migratedIrqs : List Nat
  delay_ms : Nat

/-- One execution of `exotic_balance_irq`.  If the enable flag is off the
function jumps straight to `schedule_next` with its locals still at their
initial values (in particular `max_cpu = -1`); otherwise it runs
sample → delta scan → `delta_avg = delta_sum / num_online_cpus()` →
guarded migration, toggles `heavy_tick`, and in both cases schedules the
next tick with the heavy interval iff `cpu_is_idle_wrap(max_cpu)`.
(`num_online_cpus()` is the length of the online list; the division is
the C `int` division of the signed reading of the wrapped `delta_sum` —
truncation toward zero, `Int.tdiv` — so `delta_avg` is negative whenever
the wrapped `delta_sum` reads negative.) -/
def exotic_balance_irq (env : Env) (st : BState) : TickResult :=
  if env.exoticbalance_enabled = false then
    { state := st
      max_irq := 0, min_irq := UINT_MAX, max_cpu := -1, min_cpu := -1
      delta_sum := 0, delta_avg := 0
      migratorCall := none, migratedIrqs := []
      delay_ms := if env.cpu_is_idle_wrap (-1) then HEAVY_INTERVAL_MS else LIGHT_INTERVAL_MS }
  else
    let cnt := sample env st.heavy_tick
    let s := scanResult env st
    let delta_avg := (toSigned s.delta_sum).tdiv (env.online.length : Int)
    let dynamic_threshold := delta_avg + (MIN_DELTA_IRQS_BASE : Int)
    let doCall := migrationGuard env s dynamic_threshold
    { state := { cpu_irq_count := cnt, cpu_irq_last := s.last, heavy_tick := !st.heavy_tick }
      max_irq := s.max_irq, min_irq := s.min_irq, max_cpu := s.max_cpu, min_cpu := s.min_cpu
      delta_sum := s.delta_sum, delta_avg := delta_avg
      migratorCall := if doCall then some (s.max_cpu, s.min_cpu) else none
      migratedIrqs := if doCall then migrate_irqs_limited env s.max_cpu s.min_cpu else []
      delay_ms := if env.cpu_is_idle_wrap s.max_cpu then HEAVY_INTERVAL_MS else LIGHT_INTERVAL_MS }

/-- `-ENOMEM`. -/
def ENOMEM : Int := 12

/-- Outcome of `exoticbalance_init`: its return code, whether each
`kzalloc`'d array is still held (allocated and not freed) at return, and
whether the first tick was scheduled. -/
structure InitOutcome where
  ret : Int
  countLive : Bool
  lastLive : Bool
  workScheduled : Bool

/-- `exoticbalance_init`, parametrized by whether each of the two
`kzalloc` calls succeeds.  On `!cpu_irq_count || !cpu_irq_last` it returns
`-ENOMEM` immediately — without freeing the allocation that did succeed. -/
def exoticbalance_init (allocCount allocLast : Bool) : InitOutcome :=
  if !allocCount || !allocLast then
    { ret := -ENOMEM, countLive := allocCount, lastLive := allocLast, workScheduled := false }
  else
    { ret := 0, countLive := true, lastLive := true, workScheduled := true }

/-- The all-zero initial state produced by the two `kzalloc` calls of
`exoticbalance_init` (coarse mode: `heavy_tick = false`). -/
def stZero : BState :=
  { cpu_irq_count := fun _ => 0, cpu_irq_last := fun _ => 0, heavy_tick := false }

/-- Two CPUs: CPU 0 fast (2.4 GHz) and busy (3000 interrupts on the one
line), CPU 1 slow (1.2 GHz) and idle-loaded; CPU 0 currently idle per the
idle oracle; temperature 50. -/
def envA : Env :=
  { nr_cpu_ids := 2, nr_irqs := 1, online := [0, 1],
    kstat_irqs_cpu := fun _ cpu => if cpu = 0 then 3000 else 0,
    irq_to_desc := fun _ => none,
    irq_can_set_affinity := fun _ => true,
    cpu_is_idle_wrap := fun c => decide (c = 0),
    get_cpu_max_freq := fun c => if c = 0 then 2400000 else 1200000,
    get_max_cpu_temp := 50,
    exoticbalance_enabled := true }

/-- `envA` with the enable flag switched off between ticks. -/
def envB : Env := { envA with exoticbalance_enabled := false }

/-- Two CPUs online, all interrupt traffic on CPU 1. -/
def envC1 : Env :=
  { nr_cpu_ids := 2, nr_irqs := 1, online := [0, 1],
    kstat_irqs_cpu := fun _ cpu => if cpu = 1 then 500 else 0,
    irq_to_desc := fun _ => none,
    irq_can_set_affinity := fun _ => true,
    cpu_is_idle_wrap := fun _ => false,
    get_cpu_max_freq := fun _ => 0,
    get_max_cpu_temp := 0,
    exoticbalance_enabled := true }

/-- `envC1` after CPU 1 goes offline (the array space `nr_cpu_ids = 2` is
unchanged). -/
def envC2 : Env := { envC1 with online := [0] }

/-- An environment whose single interrupt line is owned by a handler named
`kgsl-3d0` (a blacklisted graphics name) and is otherwise fully eligible:
affinity-settable, destination never idle, big imbalance, fast max CPU,
slow min CPU, cool temperature. -/
def envP : Env :=
  { nr_cpu_ids := 2, nr_irqs := 1, online := [0, 1],
    kstat_irqs_cpu := fun _ cpu => if cpu = 0 then 3000 else 0,
    irq_to_desc := fun _ => some { action := some { name := some ("kgsl-3d0") } },
    irq_can_set_affinity := fun _ => true,
    cpu_is_idle_wrap := fun _ => false,
    get_cpu_max_freq := fun c => if c = 0 then 2400000 else 1200000,
    get_max_cpu_temp := 50,
    exoticbalance_enabled := true }

/-- An environment in which no interrupt traffic occurs at all: every
per-CPU delta of a tick from `stZero` is zero. -/
def envZ : Env :=
  { nr_cpu_ids := 2, nr_irqs := 1, online := [0, 1],
    kstat_irqs_cpu := fun _ _ => 0,
    irq_to_desc := fun _ => none,
    irq_can_set_affinity := fun _ => true,
    cpu_is_idle_wrap := fun _ => false,
    get_cpu_max_freq := fun _ => 0,
    get_max_cpu_temp := 0,
    exoticbalance_enabled := true }

theorem updFn_same (f : Nat → Nat) (i v : Nat) : updFn f i v i = v := by
  simp [updFn]

theorem updFn_other (f : Nat → Nat) {i x : Nat} (v : Nat) (h : x ≠ i) :
    updFn f i v x = f x := by
  simp [updFn, h]

/-- After the delta scan, `cpu_irq_last` holds the fresh `cpu_irq_count`
value at every scanned CPU and its previous value elsewhere. -/
theorem scan_last_foldl (cnt : Nat → Nat) :
    ∀ (l : List Nat) (s : ScanSt) (x : Nat),
      (l.foldl (scanStep cnt) s).last x = if x ∈ l then cnt x else s.last x
  | [], s, x => by simp
  | c :: t, s, x => by
    rw [List.foldl_cons, scan_last_foldl cnt t (scanStep cnt s c) x]
    by_cases hx : x ∈ t
    · simp [hx]
    · by_cases hxc : x = c
      · subst hxc
        simp [hx, scanStep, updFn]
      · simp [hx, hxc, scanStep, updFn]

/-! ### Helper lemmas about the Migrator loop -/

theorem migrateLoop_length (env : Env) (dst : Int) :
    ∀ (l : List Nat) (m : Nat),
      (migrateLoop env dst l m).length ≤ MAX_IRQ_MIGRATE_PER_TICK - m
  | [], m => by simp [migrateLoop]
  | irq :: rest, m => by
    by_cases hm : MAX_IRQ_MIGRATE_PER_TICK ≤ m
    · simp [migrateLoop, hm]
    · have ih1 := migrateLoop_length env dst rest m
      have ih2 := migrateLoop_length env dst rest (m + 1)
      simp only [migrateLoop, hm, if_false]
      split
      · exact ih1
      · split
        · exact ih1
        · split
          · exact ih1
          · simp only [List.length_cons]
            omega

theorem migrateLoop_break (env : Env) (dst : Int) :
    ∀ (l : List Nat) (k : Nat),
      migrateLoop env dst l (MAX_IRQ_MIGRATE_PER_TICK + k) = []
  | [], _ => rfl
  | irq :: rest, k => by
    simp [migrateLoop, Nat.le_add_right]

theorem migrateLoop_blacklisted_not_mem (env : Env) (dst : Int) {irq : Nat}
    (hb : is_irq_blacklisted (env.irq_to_desc irq) = true) :
    ∀ (l : List Nat) (m : Nat), irq ∉ migrateLoop env dst l m
  | [], m => by simp [migrateLoop]
  | a :: rest, m => by
    have ih : ∀ m, irq ∉ migrateLoop env dst rest m :=
      fun m => migrateLoop_blacklisted_not_mem env dst hb rest m
    by_cases hm : MAX_IRQ_MIGRATE_PER_TICK ≤ m
    · simp [migrateLoop, hm]
    · by_cases hca : env.irq_can_set_affinity a = true
      · by_cases hba : is_irq_blacklisted (env.irq_to_desc a) = true
        · simpa [migrateLoop, hm, hca, hba] using ih m
        · by_cases hid : env.cpu_is_idle_wrap dst = true
          · simpa [migrateLoop, hm, hca, hba, hid] using ih m
          · simp only [migrateLoop, hm, hca, hba, hid, if_false, Bool.not_true,
              Bool.not_false, if_true, Bool.false_eq_true]
            intro hmem
            rcases List.mem_cons.mp hmem with heq | htail
            · exact hba (heq ▸ hb)
            · exact ih (m + 1) htail
      · simpa [migrateLoop, hm, hca] using ih m

/-! ### Helper lemmas about the substring search -/

theorem leadsWith_iff : ∀ (n h : List Char), leadsWith n h = true ↔ ∃ t, h = n ++ t
  | [], h => by simp [leadsWith]
  | a :: as, [] => by simp [leadsWith]
  | a :: as, b :: bs => by
    rw [show leadsWith (a :: as) (b :: bs) = ((a == b) && leadsWith as bs) from rfl]
    simp only [Bool.and_eq_true, beq_iff_eq, leadsWith_iff as bs]
    constructor
    · rintro ⟨rfl, t, rfl⟩
      exact ⟨t, rfl⟩
    · rintro ⟨t, ht⟩
      rw [List.cons_append] at ht
      injection ht with h1 h2
      exact ⟨h1.symm, t, h2⟩

theorem occursIn_iff (n : List Char) :
    ∀ h : List Char, occursIn n h = true ↔ ∃ p q, h = p ++ n ++ q
  | [] => by
    rw [show occursIn n [] = leadsWith n [] from rfl, leadsWith_iff]
    constructor
    · rintro ⟨t, ht⟩
      exact ⟨[], t, by simpa using ht⟩
    · rintro ⟨p, q, hpq⟩
      have h0 : p ++ (n ++ q) = [] := by simpa using hpq.symm
      have h1 := List.append_eq_nil.mp h0
      have h2 := List.append_eq_nil.mp h1.2
      exact ⟨[], by simp [h2.1]⟩
  | c :: t => by
    rw [show occursIn n (c :: t) = (leadsWith n (c :: t) || occursIn n t) from rfl]
    simp only [Bool.or_eq_true, leadsWith_iff, occursIn_iff n t]
    constructor
    · rintro (⟨s, hs⟩ | ⟨p, q, hpq⟩)
      · exact ⟨[], s, by simpa using hs⟩
      · exact ⟨c :: p, q, by simp [hpq]⟩
    · rintro ⟨p, q, hpq⟩
      cases p with
      | nil => exact Or.inl ⟨q, by simpa using hpq⟩
      | cons c' p' =>
        rw [List.cons_append, List.cons_append] at hpq
        injection hpq with h1 h2
        exact Or.inr ⟨p', q, h2⟩

/-! ### Helper lemmas for the all-deltas-zero scan -/

theorem scan_zero_aux (cnt : Nat → Nat) :
    ∀ (l : List Nat) (s : ScanSt), l.Nodup →
      (∀ c ∈ l, usub (cnt c) (s.last c) = 0) →
      s.max_irq = 0 → s.min_irq = 0 →
      (l.foldl (scanStep cnt) s).max_cpu = s.max_cpu ∧
      (l.foldl (scanStep cnt) s).min_cpu = s.min_cpu ∧
      (l.foldl (scanStep cnt) s).max_irq = 0 ∧
      (l.foldl (scanStep cnt) s).min_irq = 0
  | [], s, _, _, hmax, hmin => ⟨rfl, rfl, hmax, hmin⟩
  | c :: t, s, hnd, hz, hmax, hmin => by
    have hzc : usub (cnt c) (s.last c) = 0 := hz c (List.mem_cons_self c t)
    have hstep : scanStep cnt s c =
        { max_irq := s.max_irq, max_cpu := s.max_cpu, min_irq := s.min_irq,
          min_cpu := s.min_cpu, delta_sum := s.delta_sum % U32,
          last := updFn s.last c (cnt c) } := by
      simp [scanStep, uadd, hzc, hmax, hmin]
    have hnd' := (List.nodup_cons.mp hnd)
    have hz' : ∀ x ∈ t, usub (cnt x) ((updFn s.last c (cnt c)) x) = 0 := by
      intro x hx
      rw [updFn_other _ _ (fun hxc : x = c => hnd'.1 (hxc ▸ hx))]
      exact hz x (List.mem_cons_of_mem c hx)
    have ih := scan_zero_aux cnt t (scanStep cnt s c) hnd'.2 (by rw [hstep]; exact hz')
      (by rw [hstep]; exact hmax) (by rw [hstep]; exact hmin)
    rw [List.foldl_cons]
    refine ⟨?_, ?_, ih.2.2.1, ih.2.2.2⟩
    · rw [ih.1, hstep]
    · rw [ih.2.1, hstep]

/-! ### Unfolding the tick -/

/-- Explicit form of an enabled (executed) tick. -/
theorem exotic_balance_irq_enabled (env : Env) (st : BState)
    (hen : env.exoticbalance_enabled = true) :
    exotic_balance_irq env st =
      { state := { cpu_irq_count := sample env st.heavy_tick,
                   cpu_irq_last := (scanResult env st).last,
                   heavy_tick := !st.heavy_tick }
        max_irq := (scanResult env st).max_irq
        min_irq := (scanResult env st).min_irq
        max_cpu := (scanResult env st).max_cpu
        min_cpu := (scanResult env st).min_cpu
        delta_sum := (scanResult env st).delta_sum
        delta_avg := (toSigned (scanResult env st).delta_sum).tdiv (env.online.length : Int)
        migratorCall := if migrationGuard env (scanResult env st)
            ((toSigned (scanResult env st).delta_sum).tdiv (env.online.length : Int) +
              (MIN_DELTA_IRQS_BASE : Int)) then
            some ((scanResult env st).max_cpu, (scanResult env st).min_cpu) else none
        migratedIrqs := if migrationGuard env (scanResult env st)
            ((toSigned (scanResult env st).delta_sum).tdiv (env.online.length : Int) +
              (MIN_DELTA_IRQS_BASE : Int)) then
            migrate_irqs_limited env (scanResult env st).max_cpu (scanResult env st).min_cpu
            else []
        delay_ms := if env.cpu_is_idle_wrap (scanResult env st).max_cpu then HEAVY_INTERVAL_MS
            else LIGHT_INTERVAL_MS } := by
  rw [exotic_balance_irq, if_neg (by simp [hen])]

/-- Explicit form of a disabled (skipped) tick. -/
theorem exotic_balance_irq_disabled (env : Env) (st : BState)
    (hen : env.exoticbalance_enabled = false) :
    exotic_balance_irq env st =
      { state := st
        max_irq := 0, min_irq := UINT_MAX, max_cpu := -1, min_cpu := -1
        delta_sum := 0, delta_avg := 0
        migratorCall := none, migratedIrqs := []
        delay_ms := if env.cpu_is_idle_wrap (-1) then HEAVY_INTERVAL_MS
            else LIGHT_INTERVAL_MS } := by
  rw [exotic_balance_irq, if_pos hen]

/-- C2: the Migrator sets the affinity of at most `MAX_IRQ_MIGRATE_PER_TICK
= 5` interrupt lines — both for any direct invocation of
`migrate_irqs_limited` and for the lines a whole tick migrates — and its
scan stops (returns, migrating nothing more) as soon as the migrated count
has reached 5. -/
theorem claim2_migration_cap (env : Env) (st : BState) (src dst : Int) :
    (migrate_irqs_limited env src dst).length ≤ 5 ∧
    (exotic_balance_irq env st).migratedIrqs.length ≤ 5 ∧
    (∀ (rest : List Nat) (k : Nat),
      migrateLoop env dst rest (5 + k) = []) := by
  refine ⟨?_, ?_, ?_⟩
  · simpa using migrateLoop_length env dst (List.range env.nr_irqs) 0
  · by_cases hen : env.exoticbalance_enabled = true
    · rw [exotic_balance_irq_enabled env st hen]
      dsimp only
      split
      · simpa using migrateLoop_length env (scanResult env st).min_cpu
          (List.range env.nr_irqs) 0
      · simp
    · simp only [Bool.not_eq_true] at hen
      rw [exotic_balance_irq_disabled env st hen]
      simp
  · intro rest k
    exact migrateLoop_break env dst rest k

/-- C3: a protected (blacklisted-name) interrupt line is never among the
lines whose affinity a tick sets, for every environment (hence regardless
of affinity capability and destination idleness of other lines) and every
state (hence in COARSE `heavy_tick = false` and FINE `heavy_tick = true`
mode alike). -/
theorem claim3_protected_never_migrated (env : Env) (st : BState) (irq : Nat)
    (hb : is_irq_blacklisted (env.irq_to_desc irq) = true) :
    irq ∉ (exotic_balance_irq env st).migratedIrqs := by
  by_cases hen : env.exoticbalance_enabled = true
  · rw [exotic_balance_irq_enabled env st hen]
    dsimp only
    split
    · rw [migrate_irqs_limited]
      exact migrateLoop_blacklisted_not_mem env _ hb _ 0
    · simp
  · simp only [Bool.not_eq_true] at hen
    rw [exotic_balance_irq_disabled env st hen]
    simp

/-- C3 witness: in `envP` the single line is named `kgsl-3d0` (blacklisted)
and otherwise fully eligible, yet it is not migrated. -/
theorem claim3_witness :
    is_irq_blacklisted (envP.irq_to_desc 0) = true ∧
    0 ∉ (exotic_balance_irq envP stZero).migratedIrqs :=
  ⟨by decide, claim3_protected_never_migrated envP stZero 0 (by decide)⟩

/-- C4: a disabled tick leaves the whole state (both counter arrays and the
sampling mode) unchanged, performs no migration, yet still schedules a
next tick (its delay is one of the two intervals); an enabled tick toggles
the sampling mode exactly once. -/
theorem claim4_disabled_skip_and_toggle (env : Env) (st : BState) :
    (exotic_balance_irq { env with exoticbalance_enabled := false } st).state = st ∧
    (exotic_balance_irq { env with exoticbalance_enabled := false } st).migratorCall = none ∧
    (exotic_balance_irq { env with exoticbalance_enabled := false } st).migratedIrqs = [] ∧
    (exotic_balance_irq { env with exoticbalance_enabled := true } st).state.heavy_tick =
      !st.heavy_tick ∧
    ((exotic_balance_irq env st).delay_ms = LIGHT_INTERVAL_MS ∨
      (exotic_balance_irq env st).delay_ms = HEAVY_INTERVAL_MS) := by
  refine ⟨rfl, rfl, rfl, rfl, ?_⟩
  rw [exotic_balance_irq]
  split
  · split
    · exact Or.inr rfl
    · exact Or.inl rfl
  · dsimp only
    split
    · exact Or.inr rfl
    · exact Or.inl rfl

/-- C5 counterexample: a tick in `envA` identifies CPU 0 as busiest; the
next tick is skipped (`envB` is `envA` with the enable flag off) while
CPU 0 is idle per the idle oracle — yet the skipped tick schedules the
short 5 s interval, not the long 30 s one the claim requires for an idle
previous-tick busiest CPU (the code tests `cpu_is_idle_wrap` on its local
`max_cpu = -1`, never on the previous tick's value). -/
theorem claim5_counterexample :
    (exotic_balance_irq envA stZero).max_cpu = 0 ∧
    envB.cpu_is_idle_wrap 0 = true ∧
    envB.exoticbalance_enabled = false ∧
    (exotic_balance_irq envB (exotic_balance_irq envA stZero).state).delay_ms =
      LIGHT_INTERVAL_MS ∧
    (exotic_balance_irq envB (exotic_balance_irq envA stZero).state).delay_ms ≠
      HEAVY_INTERVAL_MS := by
  exact ⟨by decide, by decide, rfl, by decide, by decide⟩

/-- C5 amended: after every tick the delay before the next tick is the
long interval iff the idle query holds of the tick's locally computed
busiest CPU, which on a skipped tick is the initial value −1 (the previous
tick's busiest CPU is never consulted), and the short interval otherwise. -/
theorem claim5_amended_delay_choice (env : Env) (st : BState) :
    (exotic_balance_irq env st).delay_ms =
      (if env.cpu_is_idle_wrap (exotic_balance_irq env st).max_cpu then HEAVY_INTERVAL_MS
       else LIGHT_INTERVAL_MS) ∧
    (exotic_balance_irq { env with exoticbalance_enabled := false } st).max_cpu = -1 := by
  refine ⟨?_, rfl⟩
  rw [exotic_balance_irq]
  split
  · rfl
  · rfl

/-- C6 counterexample: CPU 1 accumulates 500 interrupts in a first tick of
`envC1`, then goes offline (`envC2`, same `nr_cpu_ids = 2` array space).
The next executed tick zeroes `cpu_irq_count[1]` but leaves
`cpu_irq_last[1]` at the stale 500, so `lastSample` does not equal the
fresh `cumulative` on all of the array space. -/
theorem claim6_counterexample :
    envC2.exoticbalance_enabled = true ∧
    (1 : Nat) < envC2.nr_cpu_ids ∧
    (exotic_balance_irq envC2
        (exotic_balance_irq envC1 stZero).state).state.cpu_irq_count 1 = 0 ∧
    (exotic_balance_irq envC2
        (exotic_balance_irq envC1 stZero).state).state.cpu_irq_last 1 = 500 ∧
    (exotic_balance_irq envC2
        (exotic_balance_irq envC1 stZero).state).state.cpu_irq_last 1 ≠
      (exotic_balance_irq envC2
        (exotic_balance_irq envC1 stZero).state).state.cpu_irq_count 1 := by
  exact ⟨rfl, by decide, by decide, by decide, by decide⟩

/-- C6 amended: on every executed tick `cpu_irq_count` is recomputed from
scratch (it equals the sampling pass over a zeroed array, independent of
its previous contents), and at the end of the tick `cpu_irq_last[cpu]`
equals the fresh `cpu_irq_count[cpu]` for every online CPU — regardless of
whether a migration occurred — while offline entries keep their previous
`cpu_irq_last` value; on a skipped tick `cpu_irq_last` is not updated at
all. -/
theorem claim6_amended_last_sample (env : Env) (st : BState) :
    (exotic_balance_irq { env with exoticbalance_enabled := true } st).state.cpu_irq_count =
      sample { env with exoticbalance_enabled := true } st.heavy_tick ∧
    (exotic_balance_irq { env with exoticbalance_enabled := true } st).state.cpu_irq_last =
      (fun cpu => if cpu ∈ env.online
        then (exotic_balance_irq
            { env with exoticbalance_enabled := true } st).state.cpu_irq_count cpu
        else st.cpu_irq_last cpu) ∧
    (exotic_balance_irq { env with exoticbalance_enabled := false } st).state.cpu_irq_last =
      st.cpu_irq_last := by
  refine ⟨rfl, ?_, rfl⟩
  funext cpu
  show (scanResult { env with exoticbalance_enabled := true } st).last cpu = _
  rw [scanResult, scan_last_foldl]
  rfl

/-- C7: an interrupt line is classified protected iff its owning-handler
name resolves (descriptor, handler action and name all present) and some
entry of the fixed blacklist table occurs in it as a case-sensitive
substring; a line with no descriptor, no handler, or no handler name is
unprotected.  The classification reads nothing but the resolved name and
the table. -/
theorem claim7_blacklist_classification :
    (∀ d : Option IrqDesc,
      is_irq_blacklisted d = true ↔
        ∃ nm frag p q, resolveName d = some nm ∧ frag ∈ irq_name_blacklist ∧
          nm.data = p ++ frag.data ++ q) ∧
    is_irq_blacklisted none = false ∧
    is_irq_blacklisted (some { action := none }) = false ∧
    is_irq_blacklisted (some { action := some { name := none } }) = false := by
  refine ⟨?_, rfl, rfl, rfl⟩
  intro d
  rw [is_irq_blacklisted]
  cases hres : resolveName d with
  | none =>
    simp
  | some nm =>
    rw [List.any_eq_true]
    constructor
    · rintro ⟨frag, hfrag, hmatch⟩
      rw [Bool.and_eq_true, decide_eq_true_eq, occursIn_iff] at hmatch
      obtain ⟨p, q, hpq⟩ := hmatch.2
      exact ⟨nm, frag, p, q, rfl, hfrag, hpq⟩
    · rintro ⟨nm', frag, p, q, hnm, hfrag, hpq⟩
      injection hnm with hnm
      subst hnm
      refine ⟨frag, hfrag, ?_⟩
      rw [Bool.and_eq_true, decide_eq_true_eq, occursIn_iff]
      refine ⟨?_, p, q, hpq⟩
      show frag.data.length ≤ nm.data.length
      rw [hpq]
      simp only [List.length_append]
      omega

/-- C8 (evidence for the code bug): when the first `kzalloc` succeeds and
the second fails, `exoticbalance_init` returns `-ENOMEM` with the first
array still allocated (leaked) — the claim's required release of the
successful allocation does not happen. -/
theorem claim8_leak_on_second_alloc_failure :
    (exoticbalance_init true false).ret = -ENOMEM ∧
    (exoticbalance_init true false).countLive = true ∧
    (exoticbalance_init true false).lastLive = false ∧
    (exoticbalance_init true false).workScheduled = false := by
  exact ⟨rfl, rfl, rfl, rfl⟩

/-- C10: on an executed tick in which every online CPU's delta is zero,
the strictly-greater max scan never fires (`max_cpu` stays at −1 with
`max_irq = 0`), the min scan fires on the first online CPU scanned
(`0 < UINT_MAX`), the migration branch is not taken, and the rescheduling
idle test is made on the unset value −1. -/
theorem claim10_all_zero_deltas (env : Env) (st : BState) (c0 : Nat) (rest : List Nat)
    (hen : env.exoticbalance_enabled = true)
    (honline : env.online = c0 :: rest)
    (hnd : env.online.Nodup)
    (hz : ∀ c ∈ env.online, usub (sample env st.heavy_tick c) (st.cpu_irq_last c) = 0) :
    (exotic_balance_irq env st).max_cpu = -1 ∧
    (exotic_balance_irq env st).max_irq = 0 ∧
    (exotic_balance_irq env st).min_cpu = Int.ofNat c0 ∧
    (exotic_balance_irq env st).migratorCall = none ∧
    (exotic_balance_irq env st).migratedIrqs = [] ∧
    (exotic_balance_irq env st).delay_ms =
      (if env.cpu_is_idle_wrap (-1) then HEAVY_INTERVAL_MS else LIGHT_INTERVAL_MS) := by
  have hzc0 : usub (sample env st.heavy_tick c0) (st.cpu_irq_last c0) = 0 :=
    hz c0 (by rw [honline]; exact List.mem_cons_self c0 rest)
  have hs1 : scanStep (sample env st.heavy_tick) (scanInit st.cpu_irq_last) c0 =
      { max_irq := 0, min_irq := 0, max_cpu := -1, min_cpu := Int.ofNat c0,
        delta_sum := 0,
        last := updFn st.cpu_irq_last c0 (sample env st.heavy_tick c0) } := by
    rw [scanStep]
    simp [scanInit, hzc0, uadd, show (0 : Nat) < UINT_MAX from by decide]
  have hnodup : (c0 :: rest).Nodup := honline ▸ hnd
  have hnd' := List.nodup_cons.mp hnodup
  have hz' : ∀ x ∈ rest, usub (sample env st.heavy_tick x)
      ((updFn st.cpu_irq_last c0 (sample env st.heavy_tick c0)) x) = 0 := by
    intro x hx
    rw [updFn_other _ _ (fun hxc : x = c0 => hnd'.1 (hxc ▸ hx))]
    exact hz x (by rw [honline]; exact List.mem_cons_of_mem c0 hx)
  have haux := scan_zero_aux (sample env st.heavy_tick) rest
      (scanStep (sample env st.heavy_tick) (scanInit st.cpu_irq_last) c0)
      hnd'.2 (by rw [hs1]; exact hz') (by rw [hs1]) (by rw [hs1])
  have hS : scanResult env st = rest.foldl (scanStep (sample env st.heavy_tick))
      (scanStep (sample env st.heavy_tick) (scanInit st.cpu_irq_last) c0) := by
    rw [scanResult, honline, List.foldl_cons]
  have hmaxcpu : (scanResult env st).max_cpu = -1 := by
    rw [hS, haux.1, hs1]
  have hmincpu : (scanResult env st).min_cpu = Int.ofNat c0 := by
    rw [hS, haux.2.1, hs1]
  have hmaxirq : (scanResult env st).max_irq = 0 := by
    rw [hS]
    exact haux.2.2.1
  have hguard : migrationGuard env (scanResult env st)
      ((toSigned (scanResult env st).delta_sum).tdiv (env.online.length : Int) +
        (MIN_DELTA_IRQS_BASE : Int)) = false := by
    rw [migrationGuard, hmaxcpu]
    simp
  rw [exotic_balance_irq_enabled env st hen]
  dsimp only
  rw [if_neg (by simp [hguard]), if_neg (by simp [hguard]), hmaxcpu]
  exact ⟨rfl, hmaxirq, hmincpu, rfl, rfl, rfl⟩

/-- C10 witness: in `envZ` (no interrupt traffic at all, two online CPUs)
the tick from the all-zero state leaves `max_cpu` at −1, sets `min_cpu` to
the first online CPU, migrates nothing, and schedules on the idle test of
−1. -/
theorem claim10_witness :
    (exotic_balance_irq envZ stZero).max_cpu = -1 ∧
    (exotic_balance_irq envZ stZero).max_irq = 0 ∧
    (exotic_balance_irq envZ stZero).min_cpu = Int.ofNat 0 ∧
    (exotic_balance_irq envZ stZero).migratorCall = none ∧
    (exotic_balance_irq envZ stZero).migratedIrqs = [] ∧
    (exotic_balance_irq envZ stZero).delay_ms =
      (if envZ.cpu_is_idle_wrap (-1) then HEAVY_INTERVAL_MS else LIGHT_INTERVAL_MS) :=
  claim10_all_zero_deltas envZ stZero 0 [1] rfl rfl (by decide) (by decide)

end ExoticBalance
